import Mathlib

/-!
A shallow embedding of the workflow graph engine of the `multi-agent`
repository (`src/stores/workflowStore.js` and `src/hooks/useAgentWorkflow.js`),
together with theorems checking the natural-language specification against it.

JavaScript numbers are modelled as `Rat`, strings as `String`, absent object
fields as `Option`, and JS truthiness of `x || d` through explicit helpers
(`jsOrString`, `jsOrRat`) because `0` and `""` are falsy in JavaScript.
-/

/-- A canvas position, `{x, y}` in the source. -/
structure Position where
  x : Rat
  y : Rat
deriving DecidableEq

/-- The agent-parameter map `node.data.config`.  The code only ever reads the
`temperature` and `max_tokens` keys of it (`convertWorkflowToApiFormat`). -/
structure Config where
  temperature : Option Rat
  max_tokens : Option Rat
deriving DecidableEq

/-- `node.data` as built by `addNode` / read by the compiler. -/
structure NodeData where
  label : String
  role : Option String
  goal : Option String
  allowedTools : Option (List String)
  config : Option Config
deriving DecidableEq

/-- A workflow node. -/
structure Node where
  id : String
  type : String
  position : Position
  data : NodeData
deriving DecidableEq

/-- `edge.data` as built by `connectNodes`. -/
structure EdgeData where
  label : String
  edgeType : String
deriving DecidableEq

/-- A workflow edge.  `data` is optional because imported edges need not
carry a `data` field (the compiler guards with `edge.data && ...`). -/
structure Edge where
  id : String
  source : String
  target : String
  type : String
  animated : Bool
  data : Option EdgeData
deriving DecidableEq

/-- The graph snapshot held by the store / workflow context:
`nodes`, `edges`, `workflowId`. -/
structure WorkflowState where
  nodes : List Node
  edges : List Edge
  workflowId : String
deriving DecidableEq

/-- JavaScript `s || d` on strings: the empty string is falsy. -/
def jsOrString (v : Option String) (d : String) : String :=
  match v with
  | none => d
  | some s => if s = "" then d else s

/-- JavaScript `x || d` on numbers: `0` is falsy. -/
def jsOrRat (v : Option Rat) (d : Rat) : Rat :=
  match v with
  | none => d
  | some x => if x = 0 then d else x

/-! ## Graph Store mutations (`src/stores/workflowStore.js`) -/

/-- `removeNode`: filters out edges incident to the node, then the node. -/
def removeNode (s : WorkflowState) (nodeId : String) : WorkflowState :=
  { s with
    edges := s.edges.filter (fun e => e.source != nodeId && e.target != nodeId),
    nodes := s.nodes.filter (fun n => n.id != nodeId) }

/-- The optional `additionalData` argument of `connectNodes`; only the two
fields the defaulting logic mentions are modelled. -/
structure EdgeAttrs where
  label : Option String
  edgeType : Option String
deriving DecidableEq

/-- `connectNodes`: builds the new edge (id template
`edge-$\x7bsource\x7d-$\x7btarget\x7d`) and appends it to the edge list.
The object spread `...additionalData` after the defaulted fields means a
present field always wins, hence `Option.getD`. -/
def connectNodes (s : WorkflowState) (source target : String) (attrs : EdgeAttrs) :
    WorkflowState × Edge :=
  let newEdge : Edge :=
    { id := "edge-" ++ source ++ "-" ++ target
      source := source
      target := target
      type := "customEdge"
      animated := true
      data := some { label := attrs.label.getD "", edgeType := attrs.edgeType.getD "bezier" } }
  ({ s with edges := s.edges ++ [newEdge] }, newEdge)

/-- `removeEdge`. -/
def removeEdge (s : WorkflowState) (edgeId : String) : WorkflowState :=
  { s with edges := s.edges.filter (fun e => e.id != edgeId) }

/-! ## Validator (`validateWorkflow`) -/

/-- Result of `validateWorkflow`: `{valid:true}` or `{valid:false, error}`. -/
inductive ValidationResult where
  | valid : ValidationResult
  | invalid : String → ValidationResult
deriving DecidableEq

/-- The per-node record `{visited, stack}` of the cycle check's `nodeMap`. -/
structure CycleFlags where
  visited : Bool
  stack : Bool
deriving DecidableEq

/-- The `nodeMap`: a JS `Map` from node id to flags, as an association list
with insertion-order-preserving, last-write-wins updates. -/
abbrev NodeFlagMap := List (String × CycleFlags)

/-- `Map.set` semantics: replace in place if the key exists, else append. -/
def mapSet (m : NodeFlagMap) (k : String) (v : CycleFlags) : NodeFlagMap :=
  if m.any (fun p => p.1 == k) then
    m.map (fun p => if p.1 == k then (k, v) else p)
  else m ++ [(k, v)]

/-- `new Map(nodes.map(node => [node.id, {visited:false, stack:false}]))`. -/
def buildNodeMap (nodes : List Node) : NodeFlagMap :=
  nodes.foldl (fun m n => mapSet m n.id ⟨false, false⟩) []

/-- The recursive `checkCycle` of `validateWorkflow`, with the mutable
`nodeMap` threaded explicitly and a fuel argument bounding recursion depth
(the JS recursion depth is bounded by the number of nodes, because a node is
marked `visited` before its outgoing edges are explored, so the fuel chosen
by `validateWorkflow` never runs out).  The `for (const edge of
outgoingEdges)` loop with its early `return true` becomes a fold whose step
function is the identity once a cycle has been found. -/
def checkCycle (edges : List Edge) : Nat → NodeFlagMap → String → Bool × NodeFlagMap
  | 0, m, _ => (false, m)
  | fuel' + 1, m, nodeId =>
    match m.lookup nodeId with
    | none => (false, m)
    | some info =>
      if info.stack then (true, m)
      else if info.visited then
        (false, mapSet m nodeId { info with stack := false })
      else
        let m1 := mapSet m nodeId ⟨true, true⟩
        let outgoing := edges.filter (fun e => e.source == nodeId)
        match outgoing.foldl
            (fun acc e =>
              match acc with
              | (true, mm) => (true, mm)
              | (false, mm) => checkCycle edges fuel' mm e.target)
            (false, m1) with
        | (true, m2) => (true, m2)
        | (false, m2) =>
          match m2.lookup nodeId with
          | some info2 => (false, mapSet m2 nodeId { info2 with stack := false })
          | none => (false, m2)

/-- The `for (const entryNode of entryNodes)` loop: the `nodeMap` is shared
across iterations, matching the JS closure over `nodeMap`. -/
def anyEntryCycle (edges : List Edge) (fuel : Nat) : NodeFlagMap → List Node → Bool
  | _, [] => false
  | m, n :: rest =>
    match checkCycle edges fuel m n.id with
    | (true, _) => true
    | (false, m') => anyEntryCycle edges fuel m' rest

/-- `validateWorkflow`: empty check, entry-point check, exit-point check,
then the cycle check from every entry node, in that order. -/
def validateWorkflow (s : WorkflowState) : ValidationResult :=
  if s.nodes.length = 0 then
    .invalid "Workflow must contain at least one agent node."
  else
    let entryNodes := s.nodes.filter (fun n => !s.edges.any (fun e => e.target == n.id))
    if entryNodes.length = 0 then
      .invalid "Workflow must have at least one entry point (node with no incoming connections)."
    else
      let exitNodes := s.nodes.filter (fun n => !s.edges.any (fun e => e.source == n.id))
      if exitNodes.length = 0 then
        .invalid "Workflow must have at least one exit point (node with no outgoing connections)."
      else
        let nodeMap := buildNodeMap s.nodes
        if anyEntryCycle s.edges (s.nodes.length + 1) nodeMap entryNodes then
          .invalid "Workflow contains a circular reference, which is not allowed."
        else .valid

/-! ## Plan Compiler (`convertWorkflowToApiFormat`) -/

/-- `llm_config` of an agent spec. -/
structure LlmConfig where
  temperature : Rat
  max_tokens : Rat
deriving DecidableEq

/-- One element of `agents_config`. -/
structure AgentConfig where
  id : String
  name : String
  role : String
  goal : String
  allowed_tools : List String
  initial_state : Config
  llm_config : LlmConfig
deriving DecidableEq

/-- One element of the orchestrator's `edges` list: source/target plus the
optional pass-through `data` (`...(edge.data && { data: edge.data })`). -/
structure ApiEdge where
  source : String
  target : String
  data : Option EdgeData
deriving DecidableEq

/-- `orchestrator_config`.  `entry_point` is `entryPoints[0]`, which is
`undefined` (here `none`) when no entry node exists. -/
structure OrchestratorConfig where
  entry_point : Option String
  finish_point : List String
  nodes : List String
  edges : List ApiEdge
deriving DecidableEq

/-- The request body of `POST /run-workflow`. -/
structure ApiWorkflow where
  initial_task : String
  workflow_id : String
  agents_config : List AgentConfig
  orchestrator_config : OrchestratorConfig
deriving DecidableEq

/-- The per-node agent spec built inside `convertWorkflowToApiFormat`'s
`nodes.map(...)`.  The `||` defaults use JS truthiness. -/
def toAgentConfig (node : Node) : AgentConfig :=
  { id := node.id
    name := node.data.label
    role := jsOrString node.data.role "Default Role"
    goal := jsOrString node.data.goal "Process information"
    allowed_tools := node.data.allowedTools.getD []
    initial_state := node.data.config.getD ⟨none, none⟩
    llm_config :=
      { temperature := jsOrRat (node.data.config.bind Config.temperature) (7 / 10)
        max_tokens := jsOrRat (node.data.config.bind Config.max_tokens) 1000 } }

/-- `convertWorkflowToApiFormat`. -/
def convertWorkflowToApiFormat (s : WorkflowState) (taskDescription : String) : ApiWorkflow :=
  let agentsConfig := s.nodes.map toAgentConfig
  let entryPoints :=
    (s.nodes.filter (fun n => !s.edges.any (fun e => e.target == n.id))).map (·.id)
  let exitPoints :=
    (s.nodes.filter (fun n => !s.edges.any (fun e => e.source == n.id))).map (·.id)
  let formattedEdges :=
    s.edges.map (fun e => ({ source := e.source, target := e.target, data := e.data } : ApiEdge))
  { initial_task := taskDescription
    workflow_id := s.workflowId
    agents_config := agentsConfig
    orchestrator_config :=
      { entry_point := entryPoints.head?
        finish_point := exitPoints
        nodes := s.nodes.map (·.id)
        edges := formattedEdges } }

/-! ## Execution Controller (`runWorkflow` in `useAgentWorkflow.js`, the
variant that keeps an execution history) -/

/-- A history entry `{id, timestamp, task, result:{success, data?/error?}}`.
`id` and `timestamp` come from `uuidv4()` / `new Date()`; they enter the
model as parameters of `runWorkflow`. -/
structure HistoryEntry where
  id : String
  timestamp : String
  task : String
  success : Bool
  data : Option String
  error : Option String
deriving DecidableEq

/-- The hook's local execution state
(`isExecuting`, `executionError`, `executionResult`,
`lastRunTaskDescription`, `executionHistory`). -/
structure ExecState where
  isExecuting : Bool
  executionError : Option String
  executionResult : Option String
  lastRunTaskDescription : String
  executionHistory : List HistoryEntry
deriving DecidableEq

/-- What one call to `runWorkflow` produces: the new hook state, the
returned `{success, result?/error?}` object, and whether the
`POST /run-workflow` request was issued. -/
structure RunOutput where
  state : ExecState
  success : Bool
  resultData : Option String
  errorMsg : Option String
  networkCalled : Bool
deriving DecidableEq

/-- `runWorkflow(taskDescription)` from `useAgentWorkflow.js`.  The external
runner (`workflowApi.runWorkflow`, an axios POST that throws on failure) is a
parameter mapping the request body to success data or a thrown error message.
Paths:
* validation failure — set the error, stop executing, return failure,
  **no history entry, no network call**;
* runner success — store the result, prepend a `success:true` entry;
* runner throw — set the error, prepend a `success:false` entry. -/
def runWorkflow (ws : WorkflowState) (task : String)
    (runner : ApiWorkflow → Except String String)
    (uuid timestamp : String) (st : ExecState) : RunOutput :=
  let st1 : ExecState :=
    { st with
      executionError := none
      executionResult := none
      isExecuting := true
      lastRunTaskDescription := task }
  match validateWorkflow ws with
  | .invalid err =>
    { state := { st1 with executionError := some err, isExecuting := false }
      success := false
      resultData := none
      errorMsg := some err
      networkCalled := false }
  | .valid =>
    let apiData := convertWorkflowToApiFormat ws task
    match runner apiData with
    | .ok result =>
      let entry : HistoryEntry :=
        { id := uuid, timestamp := timestamp, task := task
          success := true, data := some result, error := none }
      { state :=
          { st1 with
            executionResult := some result
            executionHistory := entry :: st1.executionHistory
            isExecuting := false }
        success := true
        resultData := some result
        errorMsg := none
        networkCalled := true }
    | .error msg =>
      let entry : HistoryEntry :=
        { id := uuid, timestamp := timestamp, task := task
          success := false, data := none, error := some msg }
      { state :=
          { st1 with
            executionError := some msg
            executionHistory := entry :: st1.executionHistory
            isExecuting := false }
        success := false
        resultData := none
        errorMsg := some msg
        networkCalled := true }

/-! ## Persistence Adapter (`exportWorkflow` / `importWorkflow`) -/

/-- The `metadata` object of an export document. -/
structure WorkflowMetadata where
  createdAt : String
  version : String
deriving DecidableEq

/-- The export document `{id, nodes, edges, metadata}`.  `nodes`/`edges` are
optional because `importWorkflow` checks for their absence on arbitrary
parsed input. -/
structure ExportDoc where
  id : String
  nodes : Option (List Node)
  edges : Option (List Edge)
  metadata : WorkflowMetadata
deriving DecidableEq

/-- The document built by `exportWorkflow` (the DOM download of the
serialized document is a delivery mechanism outside the data model;
`createdAt` is the `new Date()` value, a parameter here). -/
def exportWorkflow (s : WorkflowState) (createdAt : String) : ExportDoc :=
  { id := s.workflowId
    nodes := some s.nodes
    edges := some s.edges
    metadata := { createdAt := createdAt, version := "1.0" } }

/-- Result of `importWorkflow`: `{success:true}`, `{success:false,
cancelled:true}`, or `{success:false, error}` from the thrown
`Invalid workflow data` error. -/
inductive ImportResult where
  | success : WorkflowState → ImportResult
  | cancelled : ImportResult
  | failure : String → ImportResult
deriving DecidableEq

/-- `importWorkflow(jsonData)`: reject documents missing `nodes` or `edges`;
ask for confirmation (`window.confirm`, the `confirmReplace` parameter) when
the current graph is non-empty; otherwise replace `nodes` and `edges`. -/
def importWorkflow (s : WorkflowState) (doc : ExportDoc) (confirmReplace : Bool) :
    ImportResult :=
  match doc.nodes, doc.edges with
  | some ns, some es =>
    if s.nodes.length > 0 && !confirmReplace then .cancelled
    else .success { s with nodes := ns, edges := es }
  | _, _ => .failure "Invalid workflow data: missing nodes or edges"

/-! ## Layout Engine (`autoLayoutWorkflow` in `useAgentWorkflow.js`) -/

/-- `startX`. -/
def layoutStartX : Rat := 50
/-- `startY`. -/
def layoutStartY : Rat := 50
/-- `horizontalGap`. -/
def horizontalGap : Rat := 300
/-- `verticalGap`. -/
def verticalGap : Rat := 200

/-- The `newPositions` JS `Map` from node id to position. -/
abbrev PosMap := List (String × Position)

/-- `Map.set` semantics for `newPositions`. -/
def posSet (m : PosMap) (k : String) (v : Position) : PosMap :=
  if m.any (fun p => p.1 == k) then
    m.map (fun p => if p.1 == k then (k, v) else p)
  else m ++ [(k, v)]

/-- `Set.add` semantics for `processedIds`, kept as an insertion-ordered
duplicate-free list so its length is the JS `Set.size`. -/
def addProcessed (ps : List String) (id : String) : List String :=
  if ps.contains id then ps else ps ++ [id]

/-- A `forEach((node, index) => newPositions.set(node.id, {x: startX +
index * horizontalGap, y}))` row placement, used for the entry row and for
each layer. -/
def placeRow (y : Rat) : PosMap → Nat → List Node → PosMap
  | m, _, [] => m
  | m, i, n :: rest =>
    placeRow y (posSet m n.id ⟨layoutStartX + (i : Rat) * horizontalGap, y⟩) (i + 1) rest

/-- The body of the layer search: nodes of `otherNodes` that are unprocessed
and whose incoming edges (if any) all start at processed nodes. -/
def layerNodes (edges : List Edge) (processed : List String) (otherNodes : List Node) :
    List Node :=
  otherNodes.filter (fun n =>
    !processed.contains n.id &&
      (let incoming := edges.filter (fun e => e.target == n.id)
       incoming.length == 0 || incoming.all (fun e => processed.contains e.source)))

/-- The cycle fallback: place remaining nodes in a four-column grid with the
running `gridCol`/`gridRow` counters of the source. -/
def gridPlace (currentY : Rat) : PosMap → Nat → Nat → List Node → PosMap
  | m, _, _, [] => m
  | m, gridCol, gridRow, n :: rest =>
    let m' := posSet m n.id
      ⟨layoutStartX + (gridCol : Rat) * horizontalGap / 2,
       currentY + (gridRow : Rat) * verticalGap / 2⟩
    if gridCol + 1 ≥ 4 then gridPlace currentY m' 0 (gridRow + 1) rest
    else gridPlace currentY m' (gridCol + 1) gridRow rest

/-- The `while (processedIds.size < nodes.length)` loop.  The fuel
`nodes.length + 1` of `autoLayoutPositions` is exact: every pass that
continues enlarges `processed` by at least one id, so when the fuel is
exhausted `processed` already covers all nodes and the JS loop would also
return the position map unchanged. -/
def layoutLoop (nodes otherNodes : List Node) (edges : List Edge) :
    Nat → List String → Rat → PosMap → PosMap
  | 0, _, _, m => m
  | fuel + 1, processed, currentY, m =>
    if processed.length < nodes.length then
      match layerNodes edges processed otherNodes with
      | [] =>
        let remaining := nodes.filter (fun n => !processed.contains n.id)
        gridPlace currentY m 0 0 remaining
      | layer =>
        let m' := placeRow currentY m 0 layer
        let processed' := layer.foldl (fun ps n => addProcessed ps n.id) processed
        layoutLoop nodes otherNodes edges fuel processed' (currentY + verticalGap) m'
    else m

/-- The position map computed by `autoLayoutWorkflow`: entry row first, then
the layering loop. -/
def autoLayoutPositions (nodes : List Node) (edges : List Edge) : PosMap :=
  let entryNodes := nodes.filter (fun n => !edges.any (fun e => e.target == n.id))
  let otherNodes := nodes.filter (fun n => !entryNodes.contains n)
  let m0 := placeRow layoutStartY [] 0 entryNodes
  let processed0 := entryNodes.foldl (fun ps n => addProcessed ps n.id) []
  layoutLoop nodes otherNodes edges (nodes.length + 1) processed0
    (layoutStartY + verticalGap) m0

/-- `autoLayoutWorkflow`: no-op on an empty graph (the source returns
`false` without touching state), else update every node's position with
`newPositions.get(node.id) || node.position`. -/
def autoLayoutWorkflow (s : WorkflowState) : WorkflowState :=
  if s.nodes.length = 0 then s
  else
    let m := autoLayoutPositions s.nodes s.edges
    { s with
      nodes := s.nodes.map (fun n => { n with position := (m.lookup n.id).getD n.position }) }

/-! ## A specification-level invariant and concrete graphs -/

/-- No edge references a missing node (spec §4.1: "no snapshot may ever
contain an edge referencing a missing node"). -/
def noDanglingEdges (s : WorkflowState) : Prop :=
  ∀ e ∈ s.edges, (∃ n ∈ s.nodes, n.id = e.source) ∧ ∃ n ∈ s.nodes, n.id = e.target

/-- A node with no optional data, as test graphs use. -/
def mkNode (id : String) : Node :=
  { id := id, type := "agentNode", position := ⟨0, 0⟩,
    data := { label := id, role := none, goal := none, allowedTools := none, config := none } }

/-- An edge as `connectNodes` would create it. -/
def mkEdge (id source target : String) : Edge :=
  { id := id, source := source, target := target, type := "customEdge", animated := true,
    data := some { label := "", edgeType := "bezier" } }

/-- The empty graph. -/
def wsEmpty : WorkflowState := { nodes := [], edges := [], workflowId := "wf" }

/-- A single edge A→B (a valid workflow). -/
def wsAB : WorkflowState :=
  { nodes := [mkNode "A", mkNode "B"],
    edges := [mkEdge "e1" "A" "B"],
    workflowId := "wf" }

/-- The two-node cycle A→B→A of the spec's cycle test. -/
def wsCycle2 : WorkflowState :=
  { nodes := [mkNode "A", mkNode "B"],
    edges := [mkEdge "e1" "A" "B", mkEdge "e2" "B" "A"],
    workflowId := "wf" }

/-- A cycle A→B→A reachable from entry S, draining to exit T. -/
def wsCycleReach : WorkflowState :=
  { nodes := [mkNode "S", mkNode "A", mkNode "B", mkNode "T"],
    edges := [mkEdge "e1" "S" "A", mkEdge "e2" "A" "B",
              mkEdge "e3" "B" "A", mkEdge "e4" "B" "T"],
    workflowId := "wf" }

/-- The fan-out A→B, A→C of the spec's compile test. -/
def wsFanOut : WorkflowState :=
  { nodes := [mkNode "A", mkNode "B", mkNode "C"],
    edges := [mkEdge "e1" "A" "B", mkEdge "e2" "A" "C"],
    workflowId := "wf" }

/-- The chain A→B→C of the spec's removal test. -/
def wsChain : WorkflowState :=
  { nodes := [mkNode "A", mkNode "B", mkNode "C"],
    edges := [mkEdge "e1" "A" "B", mkEdge "e2" "B" "C"],
    workflowId := "wf" }

/-- The idle hook state. -/
def execState0 : ExecState :=
  { isExecuting := false, executionError := none, executionResult := none,
    lastRunTaskDescription := "", executionHistory := [] }

/-- A hook state in the middle of a run (`isExecuting = true`). -/
def stRunning : ExecState := { execState0 with isExecuting := true }

/-- A pre-existing history entry. -/
def entryOld : HistoryEntry :=
  { id := "old", timestamp := "t0", task := "old task",
    success := true, data := some "r0", error := none }

/-- A hook state that already holds one history entry. -/
def stWithHistory : ExecState := { execState0 with executionHistory := [entryOld] }

/-- A node whose `config` explicitly sets `temperature` and `max_tokens`
to `0`. -/
def nodeTempZero : Node :=
  { id := "N", type := "agentNode", position := ⟨0, 0⟩,
    data := { label := "N", role := none, goal := none, allowedTools := none,
              config := some { temperature := some 0, max_tokens := some 0 } } }

/-- A node whose `config` sets nonzero `temperature` and `max_tokens`. -/
def nodeTempHalf : Node :=
  { id := "M", type := "agentNode", position := ⟨0, 0⟩,
    data := { label := "M", role := some "Writer", goal := some "", allowedTools := some ["web"],
              config := some { temperature := some (1 / 2), max_tokens := some 500 } } }

/-! ## Helper lemmas -/

/-- The head of a filtered list is the first element satisfying the
predicate: everything before it in the original list fails the predicate. -/
theorem head_filter_decomp {α : Type} (p : α → Bool) (l : List α) (a : α)
    (h : (l.filter p).head? = some a) :
    ∃ pre post, l = pre ++ a :: post ∧ (∀ x ∈ pre, p x = false) ∧ p a = true := by
  induction l with
  | nil => simp at h
  | cons x xs ih =>
    by_cases hx : p x = true
    · rw [List.filter_cons_of_pos hx] at h
      simp only [List.head?_cons, Option.some.injEq] at h
      exact ⟨[], xs, by simp [← h], by simp, h ▸ hx⟩
    · rw [List.filter_cons_of_neg hx] at h
      obtain ⟨pre, post, hsplit, hpre, hp⟩ := ih h
      refine ⟨x :: pre, post, by simp [hsplit], ?_, hp⟩
      intro y hy
      rcases List.mem_cons.mp hy with hxy | hym
      · simpa [hxy] using hx
      · exact hpre y hym

/-- A graph that validates has at least one entry node. -/
theorem entry_filter_ne_nil {s : WorkflowState}
    (h : validateWorkflow s = ValidationResult.valid) :
    s.nodes.filter (fun n => !s.edges.any (fun e => e.target == n.id)) ≠ [] := by
  intro hnil
  simp [validateWorkflow, hnil] at h
  split at h <;> exact absurd h (by simp)

/-! ## Claim theorems -/

/-- C3 counterexample: on the two-node graph A→B→A, `validateWorkflow` does
NOT return the `CycleDetected` error — it returns the `NoEntryPoint` error,
because every node of a pure two-cycle has an incoming edge and the
entry-point check runs (and fails) before the cycle check. -/
theorem validate_two_cycle_not_cycle_error :
    validateWorkflow wsCycle2 ≠
      ValidationResult.invalid "Workflow contains a circular reference, which is not allowed." ∧
    validateWorkflow wsCycle2 =
      ValidationResult.invalid
        "Workflow must have at least one entry point (node with no incoming connections)." := by
  decide

/-- C3 (amended): for the graph A→B→A `validateWorkflow` returns invalid
with the `NoEntryPoint` reason (the entry-point check precedes the cycle
check and a pure cycle leaves no entry node); the `CycleDetected` reason is
returned for a cycle reachable from an entry node in a graph that passes the
entry/exit checks, e.g. S→A→B→A with drain edge B→T. -/
theorem validate_cycle_errors :
    validateWorkflow wsCycle2 =
      ValidationResult.invalid
        "Workflow must have at least one entry point (node with no incoming connections)." ∧
    validateWorkflow wsCycleReach =
      ValidationResult.invalid "Workflow contains a circular reference, which is not allowed." := by
  decide

/-- C4: whenever validation fails, `runWorkflow` returns before the
`POST /run-workflow` request: the external runner is never invoked. -/
theorem run_no_network_call_on_invalid
    (ws : WorkflowState) (task : String) (runner : ApiWorkflow → Except String String)
    (uuid timestamp : String) (st : ExecState) (err : String)
    (h : validateWorkflow ws = ValidationResult.invalid err) :
    (runWorkflow ws task runner uuid timestamp st).networkCalled = false := by
  unfold runWorkflow
  rw [h]

/-- C4 witness: the empty graph fails validation and its run issues no
network call. -/
theorem run_no_network_call_on_invalid_witness :
    validateWorkflow wsEmpty =
      ValidationResult.invalid "Workflow must contain at least one agent node." ∧
    (runWorkflow wsEmpty "task" (fun _ => Except.ok "ok") "u1" "ts1" execState0).networkCalled
      = false :=
  ⟨by decide,
   run_no_network_call_on_invalid wsEmpty "task" (fun _ => Except.ok "ok") "u1" "ts1"
     execState0 "Workflow must contain at least one agent node." (by decide)⟩

/-- C5: for every graph passing validation, the compiled plan's entry point
is the id of the first node (in node iteration order) with no incoming
edges, and the finish points list all nodes without outgoing edges in node
iteration order; concretely, for the fan-out A→B, A→C the plan has
`entry_point = A` and `finish_point = [B, C]`. -/
theorem compile_entry_and_finish_points :
    (∀ (ws : WorkflowState) (task : String),
      validateWorkflow ws = ValidationResult.valid →
      ∃ (n : Node) (pre post : List Node),
        ws.nodes = pre ++ n :: post ∧
        (∀ m ∈ pre, ws.edges.any (fun e => e.target == m.id) = true) ∧
        ws.edges.any (fun e => e.target == n.id) = false ∧
        (convertWorkflowToApiFormat ws task).orchestrator_config.entry_point = some n.id) ∧
    (∀ (ws : WorkflowState) (task : String),
      (convertWorkflowToApiFormat ws task).orchestrator_config.finish_point =
        (ws.nodes.filter (fun n => !ws.edges.any (fun e => e.source == n.id))).map (·.id)) ∧
    validateWorkflow wsFanOut = ValidationResult.valid ∧
    (convertWorkflowToApiFormat wsFanOut "t").orchestrator_config.entry_point = some "A" ∧
    (convertWorkflowToApiFormat wsFanOut "t").orchestrator_config.finish_point = ["B", "C"] := by
  refine ⟨?_, fun ws task => rfl, by decide, by decide, by decide⟩
  intro ws task hv
  have hne := entry_filter_ne_nil hv
  cases hfl : ws.nodes.filter (fun n => !ws.edges.any (fun e => e.target == n.id)) with
  | nil => exact absurd hfl hne
  | cons n rest =>
    have hhead : (ws.nodes.filter (fun n => !ws.edges.any (fun e => e.target == n.id))).head?
        = some n := by rw [hfl]; rfl
    obtain ⟨pre, post, hsplit, hpre, hp⟩ := head_filter_decomp _ _ _ hhead
    refine ⟨n, pre, post, hsplit, ?_, by simpa using hp, ?_⟩
    · intro m hm
      have := hpre m hm
      simpa using this
    · show ((ws.nodes.filter
          (fun n => !ws.edges.any (fun e => e.target == n.id))).map (·.id)).head? = some n.id
      rw [hfl]
      rfl

/-- C5 witness: the general entry-point statement applied to the fan-out
graph A→B, A→C. -/
theorem compile_entry_and_finish_points_witness :
    validateWorkflow wsFanOut = ValidationResult.valid ∧
    ∃ (n : Node) (pre post : List Node),
      wsFanOut.nodes = pre ++ n :: post ∧
      (∀ m ∈ pre, wsFanOut.edges.any (fun e => e.target == m.id) = true) ∧
      wsFanOut.edges.any (fun e => e.target == n.id) = false ∧
      (convertWorkflowToApiFormat wsFanOut "t").orchestrator_config.entry_point = some n.id :=
  ⟨by decide, compile_entry_and_finish_points.1 wsFanOut "t" (by decide)⟩

/-- C6 counterexample: a node whose `config` explicitly sets
`temperature: 0` and `max_tokens: 0` does NOT override the defaults — the
JS `||` treats `0` as falsy, so the compiled spec gets `temperature = 0.7`
and `max_tokens = 1000` instead of the configured `0`. -/
theorem config_zero_does_not_override :
    nodeTempZero.data.config.bind Config.temperature = some 0 ∧
    (toAgentConfig nodeTempZero).llm_config.temperature = 7 / 10 ∧
    (7 / 10 : Rat) ≠ 0 ∧
    nodeTempZero.data.config.bind Config.max_tokens = some 0 ∧
    (toAgentConfig nodeTempZero).llm_config.max_tokens = 1000 ∧
    (1000 : Rat) ≠ 0 := by
  refine ⟨rfl, ?_, by norm_num, rfl, ?_, by norm_num⟩ <;>
    simp [toAgentConfig, nodeTempZero, jsOrRat]

/-- C6 (amended): per-node agent specs copy `role`, `goal` and
`allowedTools` with defaults `Default Role` / `Process information` / `[]`
when absent, and `llmConfig` defaults `temperature = 0.7`,
`maxTokens = 1000` are overridable by any NONZERO value in the node's
`config`; a configured value of `0` is falsy in JS and falls back to the
default. -/
theorem agent_spec_defaults (n : Node) :
    ((n.data.role = none → (toAgentConfig n).role = "Default Role") ∧
     (∀ r, n.data.role = some r → r ≠ "" → (toAgentConfig n).role = r) ∧
     (n.data.goal = none → (toAgentConfig n).goal = "Process information") ∧
     (∀ g, n.data.goal = some g → g ≠ "" → (toAgentConfig n).goal = g) ∧
     (n.data.allowedTools = none → (toAgentConfig n).allowed_tools = []) ∧
     (∀ ts, n.data.allowedTools = some ts → (toAgentConfig n).allowed_tools = ts)) ∧
    ((n.data.config.bind Config.temperature = none →
        (toAgentConfig n).llm_config.temperature = 7 / 10) ∧
     (∀ t, n.data.config.bind Config.temperature = some t → t ≠ 0 →
        (toAgentConfig n).llm_config.temperature = t) ∧
     (n.data.config.bind Config.temperature = some 0 →
        (toAgentConfig n).llm_config.temperature = 7 / 10)) ∧
    ((n.data.config.bind Config.max_tokens = none →
        (toAgentConfig n).llm_config.max_tokens = 1000) ∧
     (∀ t, n.data.config.bind Config.max_tokens = some t → t ≠ 0 →
        (toAgentConfig n).llm_config.max_tokens = t) ∧
     (n.data.config.bind Config.max_tokens = some 0 →
        (toAgentConfig n).llm_config.max_tokens = 1000)) := by
  refine ⟨⟨?_, ?_, ?_, ?_, ?_, ?_⟩, ⟨?_, ?_, ?_⟩, ⟨?_, ?_, ?_⟩⟩ <;>
    first
      | (intro v h hne; simp [toAgentConfig, jsOrString, jsOrRat, h, hne])
      | (intro v h; simp [toAgentConfig, jsOrString, jsOrRat, h])
      | (intro h; simp [toAgentConfig, jsOrString, jsOrRat, h])

/-- C6 witness: the defaults fire for a bare node, and a nonzero configured
temperature does override the default. -/
theorem agent_spec_defaults_witness :
    (toAgentConfig (mkNode "A")).role = "Default Role" ∧
    (toAgentConfig nodeTempHalf).llm_config.temperature = 1 / 2 :=
  ⟨(agent_spec_defaults (mkNode "A")).1.1 rfl,
   (agent_spec_defaults nodeTempHalf).2.1.2.1 (1 / 2) rfl (by norm_num)⟩

/-- C7: `removeNode` keeps exactly the edges not incident to the removed id
and exactly the nodes with a different id, it preserves the no-dangling-edge
invariant, and on the chain A→B→C removing B leaves no edges and the nodes
A and C. -/
theorem removeNode_exact
    (s : WorkflowState) (nodeId : String) :
    ((∀ e : Edge, e ∈ (removeNode s nodeId).edges ↔
        e ∈ s.edges ∧ e.source ≠ nodeId ∧ e.target ≠ nodeId) ∧
     (∀ n : Node, n ∈ (removeNode s nodeId).nodes ↔ n ∈ s.nodes ∧ n.id ≠ nodeId)) ∧
    (noDanglingEdges s → noDanglingEdges (removeNode s nodeId)) ∧
    ((removeNode wsChain "B").edges = [] ∧
     (removeNode wsChain "B").nodes.map (·.id) = ["A", "C"]) := by
  have hedge : ∀ e : Edge, e ∈ (removeNode s nodeId).edges ↔
      e ∈ s.edges ∧ e.source ≠ nodeId ∧ e.target ≠ nodeId := by
    intro e
    simp [removeNode, List.mem_filter]
  have hnode : ∀ n : Node, n ∈ (removeNode s nodeId).nodes ↔ n ∈ s.nodes ∧ n.id ≠ nodeId := by
    intro n
    simp [removeNode, List.mem_filter]
  refine ⟨⟨hedge, hnode⟩, ?_, by decide, by decide⟩
  intro hnd e he
  obtain ⟨hemem, hes, het⟩ := (hedge e).mp he
  obtain ⟨⟨ns, hns, hnsid⟩, ⟨nt, hnt, hntid⟩⟩ := hnd e hemem
  exact ⟨⟨ns, (hnode ns).mpr ⟨hns, hnsid ▸ hes⟩, hnsid⟩,
         ⟨nt, (hnode nt).mpr ⟨hnt, hntid ▸ het⟩, hntid⟩⟩

/-- C7 witness: the chain A→B→C has no dangling edges, and neither does the
graph after `removeNode(B)`. -/
theorem removeNode_exact_witness :
    noDanglingEdges wsChain ∧ noDanglingEdges (removeNode wsChain "B") :=
  ⟨by unfold noDanglingEdges; decide,
   (removeNode_exact wsChain "B").2.1 (by unfold noDanglingEdges; decide)⟩

/-- C8: importing an exported valid graph (with replacement confirmed)
succeeds and restores exactly the original node and edge lists, whatever
graph was loaded before. -/
theorem import_export_round_trip
    (s cur : WorkflowState) (createdAt : String)
    (_hvalid : validateWorkflow s = ValidationResult.valid) :
    ∃ res : WorkflowState,
      importWorkflow cur (exportWorkflow s createdAt) true = ImportResult.success res ∧
      res.nodes = s.nodes ∧ res.edges = s.edges := by
  refine ⟨{ cur with nodes := s.nodes, edges := s.edges }, ?_, rfl, rfl⟩
  simp [importWorkflow, exportWorkflow]

/-- C8 witness: round trip of the valid fan-out graph over a different
current graph. -/
theorem import_export_round_trip_witness :
    validateWorkflow wsFanOut = ValidationResult.valid ∧
    ∃ res : WorkflowState,
      importWorkflow wsChain (exportWorkflow wsFanOut "2024-01-01") true =
        ImportResult.success res ∧
      res.nodes = wsFanOut.nodes ∧ res.edges = wsFanOut.edges :=
  ⟨by decide, import_export_round_trip wsFanOut wsChain "2024-01-01" (by decide)⟩

/-- C10: the id of an edge created by `connectNodes` is exactly
`"edge-" ++ source ++ "-" ++ target`, so connecting the same ordered pair
twice yields two edges with identical ids, both kept in the edge list. -/
theorem connect_duplicate_edge_ids
    (s : WorkflowState) (source target : String) (a1 a2 : EdgeAttrs) :
    ((connectNodes s source target a1).2.id = "edge-" ++ source ++ "-" ++ target) ∧
    ((connectNodes (connectNodes s source target a1).1 source target a2).2.id =
      (connectNodes s source target a1).2.id) ∧
    ((connectNodes (connectNodes s source target a1).1 source target a2).1.edges =
      s.edges ++ [(connectNodes s source target a1).2,
                  (connectNodes (connectNodes s source target a1).1 source target a2).2]) := by
  refine ⟨rfl, rfl, ?_⟩
  simp [connectNodes]

/-- C1 counterexample: a call to `runWorkflow` made while a run is already
in flight (`isExecuting = true`) is NOT rejected — on a valid graph it still
issues the `POST /run-workflow` request, changes the hook state, and appends
a history entry.  The source has no guard on `isExecuting`. -/
theorem run_while_running_not_rejected :
    stRunning.isExecuting = true ∧
    (runWorkflow wsAB "task" (fun _ => Except.ok "ok") "u1" "ts1" stRunning).networkCalled
      = true ∧
    (runWorkflow wsAB "task" (fun _ => Except.ok "ok") "u1" "ts1" stRunning).state.executionHistory
      ≠ stRunning.executionHistory := by
  decide

/-- C1 (amended): `runWorkflow` never consults the running flag — a call
made while `isExecuting = true` behaves exactly like the same call made
while idle (same returned result, same network behaviour, same new state). -/
theorem run_ignores_running_flag
    (ws : WorkflowState) (task : String) (runner : ApiWorkflow → Except String String)
    (uuid timestamp : String) (st : ExecState)
    (_h : st.isExecuting = true) :
    runWorkflow ws task runner uuid timestamp st =
      runWorkflow ws task runner uuid timestamp { st with isExecuting := false } := by
  rfl

/-- C1 (amended) witness at a concrete in-flight state. -/
theorem run_ignores_running_flag_witness :
    stRunning.isExecuting = true ∧
    runWorkflow wsAB "task" (fun _ => Except.ok "ok") "u1" "ts1" stRunning =
      runWorkflow wsAB "task" (fun _ => Except.ok "ok") "u1" "ts1"
        { stRunning with isExecuting := false } :=
  ⟨rfl, run_ignores_running_flag wsAB "task" (fun _ => Except.ok "ok") "u1" "ts1" stRunning rfl⟩

/-- C2 counterexample: a `runWorkflow` call that fails validation appends NO
history entry (not exactly one), and a successful call PREPENDS its entry,
so a new entry precedes — not follows — the earlier ones. -/
theorem run_history_not_one_per_call :
    (runWorkflow wsEmpty "task" (fun _ => Except.ok "ok") "u1" "ts1" execState0).state.executionHistory
      = [] ∧
    execState0.executionHistory = [] ∧
    stWithHistory.executionHistory = [entryOld] ∧
    ((runWorkflow wsAB "task" (fun _ => Except.ok "ok") "u2" "ts2" stWithHistory).state.executionHistory).head?
      ≠ some entryOld ∧
    ((runWorkflow wsAB "task" (fun _ => Except.ok "ok") "u2" "ts2" stWithHistory).state.executionHistory).length
      = 2 := by
  decide

/-- C2 (amended): `runWorkflow` appends exactly one history entry on every
call in which the runner is invoked (success or runner failure), prepending
it so the list is newest-first; a call that fails validation appends no
entry and leaves the history untouched. -/
theorem run_history_per_call
    (ws : WorkflowState) (task : String) (runner : ApiWorkflow → Except String String)
    (uuid timestamp : String) (st : ExecState) :
    (validateWorkflow ws = ValidationResult.valid →
      ∃ entry : HistoryEntry,
        (runWorkflow ws task runner uuid timestamp st).state.executionHistory =
          entry :: st.executionHistory ∧
        entry.task = task ∧
        entry.success = (runWorkflow ws task runner uuid timestamp st).success) ∧
    (∀ err, validateWorkflow ws = ValidationResult.invalid err →
      (runWorkflow ws task runner uuid timestamp st).state.executionHistory =
        st.executionHistory) := by
  constructor
  · intro h
    unfold runWorkflow
    rw [h]
    cases hr : runner (convertWorkflowToApiFormat ws task) with
    | ok r =>
      simp only [hr]
      exact ⟨_, rfl, rfl, rfl⟩
    | error msg =>
      simp only [hr]
      exact ⟨_, rfl, rfl, rfl⟩
  · intro err h
    unfold runWorkflow
    rw [h]

/-- C2 (amended) witness: a successful run over A→B prepends exactly one
entry to a one-element history. -/
theorem run_history_per_call_witness :
    validateWorkflow wsAB = ValidationResult.valid ∧
    ∃ entry : HistoryEntry,
      (runWorkflow wsAB "task" (fun _ => Except.ok "ok") "u2" "ts2" stWithHistory).state.executionHistory =
        entry :: stWithHistory.executionHistory ∧
      entry.task = "task" ∧
      entry.success =
        (runWorkflow wsAB "task" (fun _ => Except.ok "ok") "u2" "ts2" stWithHistory).success :=
  ⟨by decide,
   (run_history_per_call wsAB "task" (fun _ => Except.ok "ok") "u2" "ts2" stWithHistory).1
     (by decide)⟩

/-! ## Layout idempotence (C9) -/

/-- Filtering by a predicate on ids commutes with mapping an id-preserving
function over the nodes. -/
theorem filter_idPred_map (u : Node → Node) (hu : ∀ n, (u n).id = n.id)
    (p : String → Bool) (l : List Node) :
    (l.map u).filter (fun n => p n.id) = (l.filter (fun n => p n.id)).map u := by
  induction l with
  | nil => rfl
  | cons x xs ih =>
    by_cases hp : p x.id = true
    · rw [List.map_cons, List.filter_cons_of_pos (by simpa [hu x] using hp),
        List.filter_cons_of_pos (by simpa using hp), List.map_cons, ih]
    · rw [List.map_cons, List.filter_cons_of_neg (by simpa [hu x] using hp),
        List.filter_cons_of_neg (by simpa using hp), ih]

/-- `placeRow` reads only node ids. -/
theorem placeRow_map (u : Node → Node) (hu : ∀ n, (u n).id = n.id) (y : Rat) :
    ∀ (l : List Node) (m : PosMap) (i : Nat),
      placeRow y m i (l.map u) = placeRow y m i l := by
  intro l
  induction l with
  | nil => intro m i; rfl
  | cons x xs ih =>
    intro m i
    simp only [List.map_cons, placeRow, hu x]
    exact ih _ _

/-- The `processedIds` fold reads only node ids. -/
theorem foldProcessed_map (u : Node → Node) (hu : ∀ n, (u n).id = n.id) :
    ∀ (l : List Node) (ps : List String),
      (l.map u).foldl (fun ps n => addProcessed ps n.id) ps =
        l.foldl (fun ps n => addProcessed ps n.id) ps := by
  intro l
  induction l with
  | nil => intro ps; rfl
  | cons x xs ih =>
    intro ps
    simp only [List.map_cons, List.foldl_cons, hu x]
    exact ih _

/-- `gridPlace` reads only node ids. -/
theorem gridPlace_map (u : Node → Node) (hu : ∀ n, (u n).id = n.id) (cy : Rat) :
    ∀ (l : List Node) (m : PosMap) (c r : Nat),
      gridPlace cy m c r (l.map u) = gridPlace cy m c r l := by
  intro l
  induction l with
  | nil => intro m c r; rfl
  | cons x xs ih =>
    intro m c r
    simp only [List.map_cons, gridPlace, hu x]
    split
    · exact ih _ _ _
    · exact ih _ _ _

/-- `layerNodes` reads only node ids of its third argument. -/
theorem layerNodes_map (u : Node → Node) (hu : ∀ n, (u n).id = n.id)
    (edges : List Edge) (processed : List String) (others : List Node) :
    layerNodes edges processed (others.map u) = (layerNodes edges processed others).map u := by
  unfold layerNodes
  exact filter_idPred_map u hu
    (fun i => !processed.contains i &&
      (let incoming := edges.filter (fun e => e.target == i)
       incoming.length == 0 || incoming.all (fun e => processed.contains e.source)))
    others

/-- `layoutLoop` reads only node ids. -/
theorem layoutLoop_map (u : Node → Node) (hu : ∀ n, (u n).id = n.id) (edges : List Edge) :
    ∀ (fuel : Nat) (nodes others : List Node) (processed : List String) (cy : Rat) (m : PosMap),
      layoutLoop (nodes.map u) (others.map u) edges fuel processed cy m =
        layoutLoop nodes others edges fuel processed cy m := by
  intro fuel
  induction fuel with
  | zero => intros; rfl
  | succ f ih =>
    intro nodes others processed cy m
    simp only [layoutLoop, List.length_map]
    by_cases hlt : processed.length < nodes.length
    · rw [if_pos hlt, if_pos hlt, layerNodes_map u hu]
      cases hl : layerNodes edges processed others with
      | nil =>
        simp only [List.map_nil]
        rw [filter_idPred_map u hu (fun i => !processed.contains i) nodes,
          gridPlace_map u hu]
      | cons a as =>
        simp only [List.map_cons]
        rw [show (u a :: as.map u) = (a :: as).map u from rfl,
          placeRow_map u hu, foldProcessed_map u hu, ih]
    · rw [if_neg hlt, if_neg hlt]

/-- Whether `u n` occurs in the mapped entry list is decided by `n.id`
alone: `u` may merge nodes that differ only in position, but membership in
an id-determined filter is still preserved. -/
theorem contains_filter_map (u : Node → Node) (hu : ∀ n, (u n).id = n.id)
    (p : String → Bool) (nodes : List Node) (n : Node) (hn : n ∈ nodes) :
    ((nodes.filter (fun x => p x.id)).map u).contains (u n) =
      (nodes.filter (fun x => p x.id)).contains n := by
  rw [Bool.eq_iff_iff, List.elem_iff, List.elem_iff]
  by_cases hp : p n.id = true
  · have h1 : n ∈ nodes.filter (fun x => p x.id) := List.mem_filter.mpr ⟨hn, hp⟩
    exact ⟨fun _ => h1, fun _ => List.mem_map_of_mem u h1⟩
  · constructor
    · intro hmem
      obtain ⟨m, hmf, hum⟩ := List.mem_map.mp hmem
      have hid : m.id = n.id := by
        have := congrArg Node.id hum
        rwa [hu m, hu n] at this
      have : p m.id = true := (List.mem_filter.mp hmf).2
      exact absurd (hid ▸ this) hp
    · intro hmem
      exact absurd (List.mem_filter.mp hmem).2 hp

/-- The `otherNodes` filter (membership in the entry list, JS `includes`)
also commutes with an id-preserving map. -/
theorem other_filter_map (u : Node → Node) (hu : ∀ n, (u n).id = n.id)
    (p : String → Bool) (nodes : List Node) :
    (nodes.map u).filter (fun n => !((nodes.map u).filter (fun x => p x.id)).contains n) =
      (nodes.filter (fun n => !(nodes.filter (fun x => p x.id)).contains n)).map u := by
  rw [filter_idPred_map u hu p nodes, List.filter_map]
  congr 1
  apply List.filter_congr
  intro n hn
  simp only [Function.comp_apply]
  rw [contains_filter_map u hu p nodes n hn]

/-- The whole position map computed by the layout depends only on node ids
(and the edges): updating positions first does not change it. -/
theorem autoLayoutPositions_map (u : Node → Node) (hu : ∀ n, (u n).id = n.id)
    (nodes : List Node) (edges : List Edge) :
    autoLayoutPositions (nodes.map u) edges = autoLayoutPositions nodes edges := by
  unfold autoLayoutPositions
  simp only [List.length_map]
  rw [other_filter_map u hu (fun i => !edges.any (fun e => e.target == i)) nodes,
    filter_idPred_map u hu (fun i => !edges.any (fun e => e.target == i)) nodes,
    placeRow_map u hu, foldProcessed_map u hu, layoutLoop_map u hu]

/-- C9: `autoLayoutWorkflow` is deterministic (it is a pure function of the
graph) and idempotent — running it a second time on the already-laid-out
graph recomputes exactly the same position for every node, because the
computed positions depend only on node ids and edges, never on the current
positions. -/
theorem autoLayout_idempotent (s : WorkflowState) :
    autoLayoutWorkflow (autoLayoutWorkflow s) = autoLayoutWorkflow s := by
  by_cases h : s.nodes.length = 0
  · simp [autoLayoutWorkflow, h]
  · set u : Node → Node := fun n =>
      { n with position :=
          ((autoLayoutPositions s.nodes s.edges).lookup n.id).getD n.position } with hu_def
    have hu : ∀ n, (u n).id = n.id := fun n => rfl
    have huu : ∀ n, u (u n) = u n := by
      intro n
      simp only [hu_def]
      cases hL : (autoLayoutPositions s.nodes s.edges).lookup n.id <;> simp [hL]
    have h1 : autoLayoutWorkflow s = { s with nodes := s.nodes.map u } := by
      simp only [autoLayoutWorkflow]
      rw [if_neg h]
    rw [h1]
    have h2 : ¬(({ s with nodes := s.nodes.map u } : WorkflowState).nodes.length = 0) := by
      simpa using h
    simp only [autoLayoutWorkflow]
    rw [if_neg h2]
    rw [autoLayoutPositions_map u hu, ← hu_def]
    have hcomp : u ∘ u = u := funext fun n => huu n
    rw [List.map_map, hcomp]
